import Mathlib

/-!
# proxbox: the proxy request-handling engine

Shallow embedding of `internal/proxy/proxy.go`.

* The output/activity coordinator (package-level variables and the functions
  `showActivity`, `initOutputMode`, `showPortInfo`) is a state record passed
  explicitly; standard output is the list of chunks written, oldest first.
* Go `int` values are `Int`; no arithmetic here can leave the 64-bit range
  (the only arithmetic is `(animationIndex + 1) % 4` on an index already
  checked to lie in `0..3`).
* A slice index out of range panics in Go; the embedding returns `none`.
-/

namespace Proxbox

/-! ## Output/activity coordinator (proxy.go, lines 25-120) -/

/-- Output mode constant `ModeDefault = iota`: cursor animation. -/
def ModeDefault : Int := 0

/-- Output mode constant `ModeVerbose`: detailed logs. -/
def ModeVerbose : Int := 1

/-- Output mode constant `ModeQuiet`: no output to stdout. -/
def ModeQuiet : Int := 2

/-- The glyphs of the cursor animation, `animationChars`. -/
def animationChars : List String := ["|", "/", "-", "\\"]

/-- The package-level variables of proxy.go that the coordinator reads and
writes, together with the two effects it has on the outside: the chunks
written to standard output and whether the global zap logger has been replaced
by the no-op logger. -/
structure State where
  animationIndex : Int
  outputMode : Int
  modeInitialized : Bool
  httpPortDisplayed : Bool
  socksPortDisplayed : Bool
  nopLogger : Bool
  stdout : List String
deriving DecidableEq, Repr

/-- The values the package-level variables have when the program starts. -/
def State.initial : State :=
  { animationIndex := 0
    outputMode := ModeDefault
    modeInitialized := false
    httpPortDisplayed := false
    socksPortDisplayed := false
    nopLogger := false
    stdout := [] }

/-- Go slice indexing `xs[i]`: `none` stands for the run-time panic on an
index outside `0 .. len(xs)-1`. -/
def index (xs : List String) (i : Int) : Option String :=
  if 0 ≤ i ∧ i < (xs.length : Int) then xs.get? i.toNat else none

/-- The call `fmt.Print(chunk)`: one more chunk on standard output. -/
def State.print (s : State) (chunk : String) : State :=
  { s with stdout := s.stdout ++ [chunk] }

/-- Function `showActivity` (lines 51-64). In default mode it prints a
backspace followed by the current glyph and advances the cursor; the two other
cases of the switch are empty, and a mode outside the three constants matches
no case. -/
def showActivity (s : State) : Option State :=
  if s.outputMode = ModeDefault then
    match index animationChars s.animationIndex with
    | none => none
    | some c =>
      some { (s.print ("\x08" ++ c)) with
        animationIndex := Int.tmod (s.animationIndex + 1) (animationChars.length : Int) }
  else if s.outputMode = ModeVerbose then some s
  else if s.outputMode = ModeQuiet then some s
  else some s

/-- Function `initOutputMode` (lines 67-97). -/
def initOutputMode (quiet verbose : Bool) (s : State) : State :=
  if s.modeInitialized then s
  else
    let s1 : State := { s with modeInitialized := true }
    let s2 : State :=
      if quiet then { s1 with outputMode := ModeQuiet }
      else if verbose then { s1 with outputMode := ModeVerbose }
      else { s1 with outputMode := ModeDefault }
    if s2.outputMode = ModeDefault then { s2 with nopLogger := true }
    else if s2.outputMode = ModeVerbose then
      s2.print "Starting proxbox in verbose mode...\n"
    else if s2.outputMode = ModeQuiet then { s2 with nopLogger := true }
    else s2

/-- The line `fmt.Printf("HTTP proxy listening on port %d\n", port)`. -/
def httpPortLine (port : Int) : String :=
  "HTTP proxy listening on port " ++ toString port ++ "\n"

/-- The line `fmt.Printf("SOCKS proxy listening on port %d\n", port)`. -/
def socksPortLine (port : Int) : String :=
  "SOCKS proxy listening on port " ++ toString port ++ "\n"

/-- Function `showPortInfo` (lines 100-120). -/
def showPortInfo (proxyType : String) (port : Int) (s : State) : State :=
  if s.outputMode ≠ ModeDefault then s
  else
    let s1 : State :=
      if proxyType = "HTTP" ∧ s.httpPortDisplayed = false then
        { (s.print (httpPortLine port)) with httpPortDisplayed := true }
      else if proxyType = "SOCKS" ∧ s.socksPortDisplayed = false then
        { (s.print (socksPortLine port)) with socksPortDisplayed := true }
      else s
    if s1.httpPortDisplayed = true ∧ s1.socksPortDisplayed = true then
      s1.print (animationChars.get ⟨0, by decide⟩)
    else s1

/-- The announcement flag of a protocol name, as `showPortInfo` selects it. -/
def announced (proxyType : String) (s : State) : Bool :=
  if proxyType = "HTTP" then s.httpPortDisplayed
  else if proxyType = "SOCKS" then s.socksPortDisplayed
  else false

/-- The announcement line of a protocol name, as `showPortInfo` prints it. -/
def portLine (proxyType : String) (port : Int) : String :=
  if proxyType = "HTTP" then httpPortLine port else socksPortLine port

/-- The chunks written to standard output on the way from `s` to `t`. -/
def printedSince (s t : State) : List String :=
  t.stdout.drop s.stdout.length

/-- A run of `showActivity` calls, `n` of them, stopping at the first panic. -/
def showActivityTimes : Nat → State → Option State
  | 0, s => some s
  | n + 1, s => (showActivityTimes n s).bind showActivity

/-- A run of `initOutputMode` calls, one per pair of flags, in order. -/
def initOutputModeAll (calls : List (Bool × Bool)) (s : State) : State :=
  calls.foldl (fun acc c => initOutputMode c.1 c.2 acc) s

/-! ## CONNECT tunnelling (proxy.go, lines 152-179) -/

/-- A network connection (`net.Conn`), identified by a number. -/
abbrev Conn := Nat

/-- A Go result pair `(value, err)`: the value when `err == nil`, and
otherwise the text of the error, `err.Error()`. -/
inductive Result (α : Type) where
  | ok (value : α)
  | error (err : String)
deriving DecidableEq, Repr

/-- Status constant `http.StatusOK`. -/
def StatusOK : Nat := 200

/-- Status constant `http.StatusInternalServerError`. -/
def StatusInternalServerError : Nat := 500

/-- Status constant `http.StatusServiceUnavailable`. -/
def StatusServiceUnavailable : Nat := 503

/-- A call that a handler makes on its `http.ResponseWriter`: `w.WriteHeader(code)`,
`http.Error(w, msg, code)` (which replies with the message `msg` and writes the
status `code`), and `Hijack()` on the writer's `http.Hijacker`. -/
inductive WriterCall where
  | WriteHeader (code : Nat)
  | Error (msg : String) (code : Nat)
  | Hijack
deriving DecidableEq, Repr

/-- The response writer a handler is given. `hijacker` is `none` when the
writer does not implement `http.Hijacker` and otherwise holds what `Hijack()`
returns (the client connection, or the text of an error); `calls` records the
calls made on the writer so far, oldest first. -/
structure ResponseWriter where
  hijacker : Option (Result Conn)
  calls : List WriterCall
deriving DecidableEq, Repr

/-- The call `w.WriteHeader(code)`. -/
def ResponseWriter.WriteHeader (w : ResponseWriter) (code : Nat) : ResponseWriter :=
  { w with calls := w.calls ++ [WriterCall.WriteHeader code] }

/-- The call `http.Error(w, msg, code)`. -/
def ResponseWriter.Error (w : ResponseWriter) (msg : String) (code : Nat) : ResponseWriter :=
  { w with calls := w.calls ++ [WriterCall.Error msg code] }

/-- The status a call writes, if it writes one. -/
def WriterCall.status : WriterCall → Option Nat
  | WriterCall.WriteHeader code => some code
  | WriterCall.Error _ code => some code
  | WriterCall.Hijack => none

/-- The statuses written by a sequence of calls, in order. -/
def statusesWritten (calls : List WriterCall) : List Nat :=
  calls.filterMap WriterCall.status

/-- The status the client receives: the first status written to the response
is the one sent, later ones are ignored. -/
def sentStatus (calls : List WriterCall) : Option Nat :=
  (statusesWritten calls).head?

/-- The calls made on the writer on the way from `w` to `v`. -/
def callsSince (w v : ResponseWriter) : List WriterCall :=
  v.calls.drop w.calls.length

/-- What `handleTunneling` leaves behind: the response writer, and the
goroutines started with `go transfer(destination, source)`, each as the pair
`(destination, source)`, in the order of the `go` statements. -/
structure Tunnel where
  w : ResponseWriter
  relays : List (Conn × Conn)
deriving DecidableEq, Repr

/-- Function `handleTunneling` (lines 152-173). `dial` is the outcome of
`net.DialTimeout("tcp", host, 10*time.Second)` for each host: a connection, or
the text of the error. `host` is `r.Host`, the only field of the request that
the function reads. -/
def handleTunneling (dial : String → Result Conn) (w : ResponseWriter)
    (host : String) : Tunnel :=
  match dial host with
  | Result.error err =>
    { w := w.Error err StatusServiceUnavailable, relays := [] }
  | Result.ok dest_conn =>
    let w1 := w.WriteHeader StatusOK
    match w1.hijacker with
    | none =>
      { w := w1.Error "Hijacking not supported" StatusInternalServerError, relays := [] }
    | some hijack =>
      let w2 : ResponseWriter := { w1 with calls := w1.calls ++ [WriterCall.Hijack] }
      match hijack with
      | Result.error err =>
        { w := w2.Error err StatusServiceUnavailable, relays := [] }
      | Result.ok client_conn =>
        { w := w2, relays := [(dest_conn, client_conn), (client_conn, dest_conn)] }

/-- How a call of `io.Copy` ends: the source reached end-of-stream, a read
failed, or a write failed (with the text of the error). -/
inductive CopyOutcome where
  | eof
  | readError (err : String)
  | writeError (err : String)
deriving DecidableEq, Repr

/-- The connections as the relay sees them: those on which `Close` has been
called, and the copies that have ended, each with its outcome, latest first. -/
structure Net where
  closed : List Conn
  copies : List (Conn × Conn × CopyOutcome)
deriving DecidableEq, Repr

/-- One atomic step of a running `transfer`: the return of
`io.Copy(dst, src)` with an outcome, or a call of `Close` on a connection. -/
inductive Op where
  | copy (dst src : Conn) (outcome : CopyOutcome)
  | close (c : Conn)
deriving DecidableEq, Repr

/-- The effect of one step on the connections. -/
def Op.run : Op → Net → Net
  | Op.copy dst src outcome, n => { n with copies := (dst, src, outcome) :: n.copies }
  | Op.close c, n => { n with closed := c :: n.closed }

/-- The steps of `transfer(destination, source)` (lines 175-179) in the order
they happen: `io.Copy(destination, source)` returns, then the deferred calls
run last-in first-out, `source.Close()` before `destination.Close()`. -/
def transferOps (outcome : CopyOutcome) (destination source : Conn) : List Op :=
  [Op.copy destination source outcome, Op.close source, Op.close destination]

/-- Function `transfer`, run from start to return. -/
def transfer (outcome : CopyOutcome) (destination source : Conn) (n : Net) : Net :=
  (transferOps outcome destination source).foldl (fun acc op => op.run acc) n

/-- Two goroutines running concurrently, each with the steps it has still to
take, over shared connections. A goroutine with no step left has returned. -/
structure Relays where
  first : List Op
  second : List Op
  net : Net
deriving DecidableEq, Repr

/-- The scheduler lets one of the two goroutines take its next step; a
goroutine that has returned takes none. -/
def Relays.step (r : Relays) (pickFirst : Bool) : Relays :=
  if pickFirst then
    match r.first with
    | [] => r
    | op :: rest => { r with first := rest, net := op.run r.net }
  else
    match r.second with
    | [] => r
    | op :: rest => { r with second := rest, net := op.run r.net }

/-- A schedule is the sequence of the scheduler's choices. -/
def Relays.run (r : Relays) (schedule : List Bool) : Relays :=
  schedule.foldl Relays.step r

/-- The two goroutines that the statements `go transfer(dest_conn, client_conn)`
and `go transfer(client_conn, dest_conn)` start, given how the copy of each
will end. -/
def startRelays (relays : List (Conn × Conn)) (o1 o2 : CopyOutcome) (n : Net) : Relays :=
  match relays with
  | [(d1, s1), (d2, s2)] =>
    { first := transferOps o1 d1 s1, second := transferOps o2 d2 s2, net := n }
  | _ => { first := [], second := [], net := n }

/-- How far a goroutine running `transfer(destination, source)` has come, read
off the steps it has still to take: it has all its steps before it, or the copy
has returned, or the source has been closed as well, or it has returned with
both connections closed. -/
def relayProgress (outcome : CopyOutcome) (destination source : Conn) (remaining : List Op)
    (n : Net) : Prop :=
  remaining = transferOps outcome destination source ∨
  remaining = [Op.close source, Op.close destination] ∨
  (remaining = [Op.close destination] ∧ source ∈ n.closed) ∨
  (remaining = [] ∧ source ∈ n.closed ∧ destination ∈ n.closed)

/-! ## Plain request forwarding (proxy.go, lines 181-253) -/

/-- The fields of `url.URL` that the code reads or writes (`Scheme`, `Host`) and
the rest of a parsed URL, which it only passes on. -/
structure URL where
  Scheme : String
  Host : String
  Path : String
  RawQuery : String
deriving DecidableEq, Repr

/-- The functions of the Go standard library that `handleHTTP` calls and whose
code is not part of this repository. `canonicalKey` is
`textproto.CanonicalMIMEHeaderKey`, which `Header.Set` and `Header.Get` apply to
the key they are given; `reparse u` is `url.Parse(u.String())`, the rendering of
a URL parsed again. -/
structure Lib where
  canonicalKey : String → String
  reparse : URL → Result URL

/-- The type `http.Header`: a map from canonical key to the values of that
key; `none` for a key that is not in the map. -/
abbrev Header := String → Option (List String)

/-- Method `Header.Set(key, value)`: the canonical form of the key is mapped to
the single value, replacing whatever values it had. -/
def Header.Set (lib : Lib) (h : Header) (key value : String) : Header :=
  fun k => if k = lib.canonicalKey key then some [value] else h k

/-- Method `Header.Get(key)`: the first value of the canonical form of the key,
or the empty string when there is none. -/
def Header.Get (lib : Lib) (h : Header) (key : String) : String :=
  match h (lib.canonicalKey key) with
  | some (v :: _) => v
  | _ => ""

/-- The fields of `http.Request` that the code reads or writes. -/
structure Request where
  Method : String
  URL : URL
  Header : Header
  Host : String
  RemoteAddr : String

/-- The fields of `http.Response` that matter to the response modifier. -/
structure Response where
  StatusCode : Nat
  Header : Header
  Body : String

/-- The statements `if targetURL.Scheme == "" { targetURL.Scheme = "http" }`
(lines 191-193 and 222-224). -/
def ensureScheme (targetURL : URL) : URL :=
  if targetURL.Scheme = "" then { targetURL with Scheme := "http" } else targetURL

/-- The assignments of lines 201-205, and again of lines 233-237: the request
gets the target URL, the three forwarding headers (from the request's current
`Host`, the target's scheme and the remote address), and then the target's
host as its `Host`. -/
def setForwarding (lib : Lib) (r : Request) (targetURL : URL) : Request :=
  let r1 : Request := { r with URL := targetURL }
  let r2 : Request := { r1 with Header := Header.Set lib r1.Header "X-Forwarded-Host" r1.Host }
  let r3 : Request :=
    { r2 with Header := Header.Set lib r2.Header "X-Forwarded-Proto" targetURL.Scheme }
  let r4 : Request := { r3 with Header := Header.Set lib r3.Header "X-Real-IP" r3.RemoteAddr }
  { r4 with Host := targetURL.Host }

/-- The in-place rewrite of `handleHTTP` (lines 184-205). When the URL does not
parse the function returns without a response, here the error. -/
def rewriteRequest (lib : Lib) (r : Request) : Result Request :=
  match lib.reparse r.URL with
  | Result.error err => Result.error err
  | Result.ok targetURL => Result.ok (setForwarding lib r (ensureScheme targetURL))

/-- The `Director` closure of the reverse proxy (lines 216-238). When the URL
does not parse it returns early and leaves the request as it was. -/
def Director (lib : Lib) (req : Request) : Request :=
  match lib.reparse req.URL with
  | Result.error _ => req
  | Result.ok targetURL => setForwarding lib req (ensureScheme targetURL)

/-- The `ModifyResponse` closure of the reverse proxy (lines 239-245): the
response as modified, and the error returned (`none` for `nil`). -/
def ModifyResponse (lib : Lib) (resp : Response) : Response × Option String :=
  let r1 : Response :=
    { resp with Header := Header.Set lib resp.Header "Access-Control-Allow-Origin" "*" }
  let r2 : Response :=
    { r1 with
      Header :=
        Header.Set lib r1.Header "Access-Control-Allow-Methods" "GET, POST, PUT, DELETE, OPTIONS" }
  let r3 : Response :=
    { r2 with Header := Header.Set lib r2.Header "Access-Control-Allow-Headers" "*" }
  (r3, none)

/-- The request as `handleHTTP` and the `Director` leave it: the in-place
rewrite, then `proxy.ServeHTTP(w, r)`, which hands a copy of the rewritten
request to the `Director`. This is not yet what is sent: after the `Director`
returns `ServeHTTP` goes on to remove and to set headers, see `sentRequest`;
it does not touch the URL or the `Host` again. -/
def outgoingRequest (lib : Lib) (r : Request) : Result Request :=
  match rewriteRequest lib r with
  | Result.error err => Result.error err
  | Result.ok r1 => Result.ok (Director lib r1)

/-- The scheme `handleHTTP` resolves for a parsed target URL: the URL's own
scheme, or `http` when it has none. -/
def resolvedScheme (targetURL : URL) : String :=
  if targetURL.Scheme = "" then "http" else targetURL.Scheme

/-- Method `Header.Del(key)`: the canonical form of the key is removed from
the map. -/
def Header.Del (lib : Lib) (h : Header) (key : String) : Header :=
  fun k => if k = lib.canonicalKey key then none else h k

/-- The call `strings.Split(f, ",")`, on the characters of `f`. -/
def splitComma : List Char → List (List Char)
  | [] => [[]]
  | c :: cs =>
    match splitComma cs with
    | [] => [[c]]
    | w :: ws => if c = ',' then [] :: w :: ws else (c :: w) :: ws

/-- The white space that `textproto.TrimString` removes: space, tab, line feed
and carriage return. -/
def isASCIISpace (c : Char) : Bool :=
  c = Char.ofNat 32 || c = Char.ofNat 9 || c = Char.ofNat 10 || c = Char.ofNat 13

/-- The call `textproto.TrimString(sf)`, on the characters of `sf`. -/
def trimString (cs : List Char) : List Char :=
  ((cs.dropWhile isASCIISpace).reverse.dropWhile isASCIISpace).reverse

/-- The header names listed in the values of a `Connection` header: each value
split at the commas, each piece trimmed, the empty pieces dropped
(`removeHopByHopHeaders` of net/http/httputil, first loop). -/
def connectionTokens (values : List String) : List String :=
  ((values.flatMap (fun f => splitComma f.data)).map
    (fun sf => String.mk (trimString sf))).filter (fun sf => sf ≠ "")

/-- The variable `hopHeaders` of net/http/httputil: the headers that are
hop-by-hop whatever the `Connection` header says. -/
def hopHeaders : List String :=
  ["Connection", "Proxy-Connection", "Keep-Alive", "Proxy-Authenticate",
   "Proxy-Authorization", "Te", "Trailer", "Transfer-Encoding", "Upgrade"]

/-- Function `removeHopByHopHeaders` of net/http/httputil, which
`ReverseProxy.ServeHTTP` applies to the headers of the outgoing request after
the `Director` has returned: the headers named in `h["Connection"]` are
deleted, then the headers of `hopHeaders`. -/
def removeHopByHopHeaders (lib : Lib) (h : Header) : Header :=
  let h1 : Header :=
    (connectionTokens ((h "Connection").getD [])).foldl (fun acc sf => Header.Del lib acc sf) h
  hopHeaders.foldl (fun acc f => Header.Del lib acc f) h1

/-- Whether the `Connection` header of `h` names the header `key`: one of the
names it lists has the canonical form of `key`. -/
def namedInConnection (lib : Lib) (h : Header) (key : String) : Bool :=
  (connectionTokens ((h "Connection").getD [])).any
    (fun sf => decide (lib.canonicalKey sf = lib.canonicalKey key))

/-- The keys that `ReverseProxy.ServeHTTP` sets itself on the outgoing request
once the hop-by-hop headers are removed, in the order it sets them: `Te` (when
the client accepts trailers), `Connection` and `Upgrade` (on a protocol
upgrade), `X-Forwarded-For` (the client address, after any earlier ones) and
`User-Agent` (emptied when the request has none). -/
def proxyOwnKeys : List String :=
  ["Te", "Connection", "Upgrade", "X-Forwarded-For", "User-Agent"]

/-- For each key of `proxyOwnKeys`, the value `ReverseProxy.ServeHTTP` sets it
to, or `none` when it leaves the key alone, given the request it was called
with and the outgoing request as the `Director` left it. The conditions and
the values are computed by library code that is not part of this repository. -/
abbrev OwnHeader := String → Request → Request → Option String

/-- The headers of the outgoing request after `ReverseProxy.ServeHTTP` has set
its own. -/
def setOwnHeaders (lib : Lib) (own : OwnHeader) (req outreq : Request) (h : Header) :
    Header :=
  proxyOwnKeys.foldl
    (fun acc key =>
      match own key req outreq with
      | some value => Header.Set lib acc key value
      | none => acc)
    h

/-- What `proxy.ServeHTTP(w, r)` does to the rewritten request `req` before it
sends it: the `Director` is applied to a copy, the hop-by-hop headers are
removed from the copy, and the proxy sets its own headers. -/
def serveRequest (lib : Lib) (own : OwnHeader) (req : Request) : Request :=
  let outreq := Director lib req
  { outreq with
    Header := setOwnHeaders lib own req outreq (removeHopByHopHeaders lib outreq.Header) }

/-- The request that leaves the proxy for a request given to `handleHTTP`
(lines 181-253): the in-place rewrite, then `proxy.ServeHTTP(w, r)`. When the
URL does not parse nothing is sent. -/
def sentRequest (lib : Lib) (own : OwnHeader) (r : Request) : Result Request :=
  match rewriteRequest lib r with
  | Result.error err => Result.error err
  | Result.ok r1 => Result.ok (serveRequest lib own r1)

/-- Values of the library functions on the inputs used in the examples below.
Of the header keys in proxy.go only `X-Real-IP` is not already in canonical
form (it becomes `X-Real-Ip`). The URLs of the examples, `/path`,
`http:///path` and `http://b.com/x`, render and parse back to the same
scheme, host and path, so on them `reparse` returns its argument. -/
def sampleLib : Lib :=
  { canonicalKey := fun key => if key = "X-Real-IP" then "X-Real-Ip" else key
    reparse := fun u => Result.ok u }

/-- A header map with no keys. -/
def emptyHeader : Header := fun _ => none

/-- The request `GET /path HTTP/1.1` with `Host: a.com` from the client at
`10.0.0.1:5000`, as the server hands it to the handler: the URL of an
origin-form request line has a path only. -/
def originFormRequest : Request :=
  { Method := "GET"
    URL := { Scheme := "", Host := "", Path := "/path", RawQuery := "" }
    Header := emptyHeader
    Host := "a.com"
    RemoteAddr := "10.0.0.1:5000" }

/-- The request `GET http://b.com/x HTTP/1.1` from the client at
`10.0.0.1:5000`: the URL of an absolute-form request line names the host, and
the server takes the request's `Host` from it. -/
def absoluteFormRequest : Request :=
  { Method := "GET"
    URL := { Scheme := "http", Host := "b.com", Path := "/x", RawQuery := "" }
    Header := emptyHeader
    Host := "b.com"
    RemoteAddr := "10.0.0.1:5000" }

/-- The headers `ReverseProxy.ServeHTTP` sets itself for the requests of the
examples below, which come from `10.0.0.1:5000`, carry no `X-Forwarded-For`, no
`User-Agent` and no `Te`, and ask for no protocol upgrade: `X-Forwarded-For`
becomes the client address and `User-Agent` is emptied. -/
def sampleOwn : OwnHeader :=
  fun key _ _ =>
    if key = "X-Forwarded-For" then some "10.0.0.1"
    else if key = "User-Agent" then some ""
    else none

/-- The request `GET http://b.com/x HTTP/1.1` from the client at
`10.0.0.1:5000` with the header `Connection: X-Real-IP, X-Forwarded-Proto`. -/
def connectionNamingRequest : Request :=
  { Method := "GET"
    URL := { Scheme := "http", Host := "b.com", Path := "/x", RawQuery := "" }
    Header := fun k => if k = "Connection" then some ["X-Real-IP, X-Forwarded-Proto"] else none
    Host := "b.com"
    RemoteAddr := "10.0.0.1:5000" }

/-- The request `GET http://b.com/x HTTP/1.1` from the client at
`10.0.0.1:5000` with headers of the client's own making, `X-Real-IP: 6.6.6.6`
and two values of `X-Forwarded-Proto`, and with `Connection: Keep-Alive`. -/
def forgedHeadersRequest : Request :=
  { Method := "GET"
    URL := { Scheme := "http", Host := "b.com", Path := "/x", RawQuery := "" }
    Header := fun k =>
      if k = "X-Real-Ip" then some ["6.6.6.6"]
      else if k = "X-Forwarded-Proto" then some ["https", "ftp"]
      else if k = "Connection" then some ["Keep-Alive"]
      else none
    Host := "b.com"
    RemoteAddr := "10.0.0.1:5000" }

/-- An upstream response that already carries `Access-Control-Allow-Origin`, with
two values, and a `Content-Type`. -/
def upstreamResponse : Response :=
  { StatusCode := 200
    Header := fun k =>
      if k = "Access-Control-Allow-Origin" then
        some ["https://a.example", "https://b.example"]
      else if k = "Content-Type" then some ["text/plain"]
      else none
    Body := "ok" }

/-! ## Theorems: output/activity coordinator -/

theorem initOutputMode_of_initialized (t : State) (q v : Bool)
    (h : t.modeInitialized = true) : initOutputMode q v t = t := by
  simp [initOutputMode, h]

theorem initOutputModeAll_of_initialized (calls : List (Bool × Bool)) (t : State)
    (h : t.modeInitialized = true) : initOutputModeAll calls t = t := by
  induction calls with
  | nil => rfl
  | cons c rest ih =>
    simp only [initOutputModeAll, List.foldl_cons] at ih ⊢
    rw [initOutputMode_of_initialized t c.1 c.2 h]
    exact ih

theorem initOutputMode_initialized (s : State) (q v : Bool) :
    (initOutputMode q v s).modeInitialized = true := by
  cases hs : s.modeInitialized
  · cases q <;> cases v <;>
      simp [initOutputMode, hs, State.print, ModeDefault, ModeVerbose, ModeQuiet]
  · simp [initOutputMode, hs]

/-- C8: starting from an uninitialized state, after a first `initOutputMode`
call with flags `quiet`, `verbose` followed by any further calls with arbitrary
flags, the state is the one the first call alone produced: its mode is Quiet if
`quiet` is set (whatever `verbose` is), otherwise Verbose if `verbose` is set,
otherwise Default, and it is initialized. Every call on an initialized state
returns that state unchanged, so it changes neither the mode nor the flag and
prints nothing. -/
theorem initOutputMode_first_call_wins (s : State) (quiet verbose : Bool)
    (later : List (Bool × Bool)) (h : s.modeInitialized = false) :
    initOutputModeAll ((quiet, verbose) :: later) s = initOutputMode quiet verbose s ∧
    (initOutputModeAll ((quiet, verbose) :: later) s).modeInitialized = true ∧
    (quiet = true → (initOutputModeAll ((quiet, verbose) :: later) s).outputMode = ModeQuiet) ∧
    (quiet = false → verbose = true →
      (initOutputModeAll ((quiet, verbose) :: later) s).outputMode = ModeVerbose) ∧
    (quiet = false → verbose = false →
      (initOutputModeAll ((quiet, verbose) :: later) s).outputMode = ModeDefault) ∧
    (∀ (t : State) (q v : Bool), t.modeInitialized = true →
      initOutputMode q v t = t ∧ printedSince t (initOutputMode q v t) = []) := by
  have hrun : initOutputModeAll ((quiet, verbose) :: later) s
      = initOutputMode quiet verbose s := by
    have := initOutputModeAll_of_initialized later (initOutputMode quiet verbose s)
      (initOutputMode_initialized s quiet verbose)
    simpa [initOutputModeAll] using this
  rw [hrun]
  refine ⟨rfl, initOutputMode_initialized s quiet verbose, ?_, ?_, ?_, ?_⟩
  · intro hq
    subst hq
    simp [initOutputMode, h, ModeDefault, ModeVerbose, ModeQuiet]
  · intro hq hv
    subst hq hv
    simp [initOutputMode, h, State.print, ModeDefault, ModeVerbose, ModeQuiet]
  · intro hq hv
    subst hq hv
    simp [initOutputMode, h, ModeDefault, ModeVerbose, ModeQuiet]
  · intro t q v ht
    rw [initOutputMode_of_initialized t q v ht]
    exact ⟨rfl, by simp [printedSince]⟩

theorem initOutputMode_first_call_wins_witness :
    initOutputModeAll ((true, true) :: [(false, true), (false, false)]) State.initial
      = initOutputMode true true State.initial ∧
    (initOutputModeAll ((true, true) :: [(false, true), (false, false)])
      State.initial).outputMode = ModeQuiet :=
  have h := initOutputMode_first_call_wins State.initial true true
    [(false, true), (false, false)] (by decide)
  ⟨h.1, h.2.2.1 rfl⟩

theorem showActivity_default_step (t : State) (i : Nat) (hi : i < 4)
    (hm : t.outputMode = ModeDefault) (hidx : t.animationIndex = (i : Int)) :
    ∃ g, animationChars.get? i = some g ∧ index animationChars t.animationIndex = some g ∧
      showActivity t = some { t with stdout := t.stdout ++ ["\x08" ++ g],
                                     animationIndex := (((i + 1) % 4 : Nat) : Int) } := by
  interval_cases i <;>
    simp [showActivity, hm, hidx, index, animationChars, State.print, Int.tmod]

/-- C10: in default mode, starting from the cursor at 0, the first `k` calls of
`showActivity` all return (no index is out of range) and leave the mode
unchanged and the cursor at `k mod 4`, within `0..3`; the next call, the `k`-th
counting from zero, looks up the glyph at position `k mod 4` of
`|`, `/`, `-`, `\`, prints it after a backspace and moves the cursor to
`(k+1) mod 4`. In verbose or quiet mode `showActivity` returns the state
unchanged, so it prints nothing and leaves the cursor alone. -/
theorem showActivity_cycles (s : State) (k : Nat) :
    animationChars = ["|", "/", "-", "\\"] ∧
    (s.outputMode = ModeDefault → s.animationIndex = 0 →
      ∃ sk, showActivityTimes k s = some sk ∧ sk.outputMode = ModeDefault ∧
        sk.animationIndex = ((k % 4 : Nat) : Int) ∧
        0 ≤ sk.animationIndex ∧ sk.animationIndex < 4 ∧
        ∃ g, animationChars.get? (k % 4) = some g ∧
          index animationChars sk.animationIndex = some g ∧
          showActivity sk = some { sk with stdout := sk.stdout ++ ["\x08" ++ g],
                                           animationIndex := (((k + 1) % 4 : Nat) : Int) }) ∧
    (s.outputMode = ModeVerbose ∨ s.outputMode = ModeQuiet →
      showActivity s = some s ∧ printedSince s s = []) := by
  refine ⟨rfl, ?_, ?_⟩
  · intro hm hi
    have key : ∃ sk, showActivityTimes k s = some sk ∧ sk.outputMode = ModeDefault ∧
        sk.animationIndex = ((k % 4 : Nat) : Int) := by
      induction k with
      | zero => exact ⟨s, rfl, hm, by simpa using hi⟩
      | succ n ih =>
        obtain ⟨sn, hrun, hmode, hidx⟩ := ih
        obtain ⟨g, _, _, hstep⟩ :=
          showActivity_default_step sn (n % 4) (Nat.mod_lt _ (by decide)) hmode hidx
        refine ⟨{ sn with stdout := sn.stdout ++ ["\x08" ++ g],
                          animationIndex := (((n % 4 + 1) % 4 : Nat) : Int) }, ?_, hmode, ?_⟩
        · simp [showActivityTimes, hrun, hstep]
        · show (((n % 4 + 1) % 4 : Nat) : Int) = (((n + 1) % 4 : Nat) : Int)
          congr 1
          omega
    obtain ⟨sk, hrun, hmode, hidx⟩ := key
    obtain ⟨g, hg, hlook, hstep⟩ :=
      showActivity_default_step sk (k % 4) (Nat.mod_lt _ (by decide)) hmode hidx
    refine ⟨sk, hrun, hmode, hidx, ?_, ?_, g, hg, hlook, ?_⟩
    · rw [hidx]; exact Int.natCast_nonneg _
    · rw [hidx]
      have : k % 4 < 4 := Nat.mod_lt _ (by decide)
      omega
    · rw [hstep]
      simp
  · intro h
    refine ⟨?_, by simp [printedSince]⟩
    rcases h with h | h <;> simp [showActivity, h, ModeDefault, ModeVerbose, ModeQuiet]

theorem showActivity_cycles_witness :
    ∃ sk, showActivityTimes 6 State.initial = some sk ∧
      sk.animationIndex = 2 ∧ showActivity sk =
        some { sk with stdout := sk.stdout ++ ["\x08-"], animationIndex := 3 } := by
  obtain ⟨sk, hrun, _, hidx, _, _, g, hg, _, hstep⟩ :=
    (showActivity_cycles State.initial 6).2.1 rfl rfl
  refine ⟨sk, hrun, by simpa using hidx, ?_⟩
  have hg2 : g = "-" := by
    have : animationChars.get? (6 % 4) = some "-" := by decide
    rw [this] at hg
    exact (Option.some.inj hg).symm
  rw [hstep, hg2]
  rfl

theorem portLine_ne_glyph (P : String) (port : Int) : portLine P port ≠ "|" := by
  intro h
  have hlen := congrArg String.length h
  unfold portLine httpPortLine socksPortLine at hlen
  have h1 : ("|" : String).length = 1 := by decide
  have h2 : ("\n" : String).length = 1 := by decide
  have h3 : ("HTTP proxy listening on port " : String).length = 29 := by decide
  have h4 : ("SOCKS proxy listening on port " : String).length = 30 := by decide
  split at hlen <;> simp only [String.length_append, h1, h2, h3, h4] at hlen <;> omega

theorem showPortInfo_first (P : String) (port : Int) (s : State)
    (hP : P = "HTTP" ∨ P = "SOCKS") (hm : s.outputMode = ModeDefault)
    (ha : announced P s = false) :
    ∃ rest, (∀ x ∈ rest, x = "|") ∧
      (showPortInfo P port s).stdout = s.stdout ++ portLine P port :: rest ∧
      announced P (showPortInfo P port s) = true ∧
      (showPortInfo P port s).outputMode = ModeDefault := by
  rcases hP with hP | hP <;> subst hP
  · have ha2 : s.httpPortDisplayed = false := by simpa [announced] using ha
    cases hs : s.socksPortDisplayed
    · exact ⟨[], by simp, by
        simp [showPortInfo, hm, ha2, hs, State.print, portLine, announced]⟩
    · exact ⟨["|"], by simp, by
        simp [showPortInfo, hm, ha2, hs, State.print, portLine, announced, animationChars]⟩
  · have ha2 : s.socksPortDisplayed = false := by simpa [announced] using ha
    cases hs : s.httpPortDisplayed
    · exact ⟨[], by simp, by
        simp [showPortInfo, hm, ha2, hs, State.print, portLine, announced]⟩
    · exact ⟨["|"], by simp, by
        simp [showPortInfo, hm, ha2, hs, State.print, portLine, announced, animationChars]⟩

theorem showPortInfo_later (P : String) (port : Int) (t : State)
    (hP : P = "HTTP" ∨ P = "SOCKS") (hm : t.outputMode = ModeDefault)
    (ha : announced P t = true) :
    ∃ rest, (∀ x ∈ rest, x = "|") ∧
      (showPortInfo P port t).stdout = t.stdout ++ rest ∧
      announced P (showPortInfo P port t) = true ∧
      (showPortInfo P port t).outputMode = ModeDefault := by
  rcases hP with hP | hP <;> subst hP
  · have ha2 : t.httpPortDisplayed = true := by simpa [announced] using ha
    cases hs : t.socksPortDisplayed
    · exact ⟨[], by simp, by
        simp [showPortInfo, hm, ha2, hs, State.print, announced]⟩
    · exact ⟨["|"], by simp, by
        simp [showPortInfo, hm, ha2, hs, State.print, announced, animationChars]⟩
  · have ha2 : t.socksPortDisplayed = true := by simpa [announced] using ha
    cases hs : t.httpPortDisplayed
    · exact ⟨[], by simp, by
        simp [showPortInfo, hm, ha2, hs, State.print, announced]⟩
    · exact ⟨["|"], by simp, by
        simp [showPortInfo, hm, ha2, hs, State.print, announced, animationChars]⟩

theorem showPortInfo_later_iterate (P : String) (port : Int) (n : Nat)
    (hP : P = "HTTP" ∨ P = "SOCKS") (t : State) (hm : t.outputMode = ModeDefault)
    (ha : announced P t = true) :
    ∃ rest, (∀ x ∈ rest, x = "|") ∧
      ((showPortInfo P port)^[n] t).stdout = t.stdout ++ rest ∧
      announced P ((showPortInfo P port)^[n] t) = true := by
  induction n generalizing t with
  | zero => exact ⟨[], by simp, by simp, by simpa using ha⟩
  | succ n ih =>
    obtain ⟨r1, hr1, hout1, ha1, hm1⟩ := showPortInfo_later P port t hP hm ha
    obtain ⟨r2, hr2, hout2, ha2⟩ := ih (showPortInfo P port t) hm1 ha1
    refine ⟨r1 ++ r2, ?_, ?_, ?_⟩
    · intro x hx
      rcases List.mem_append.mp hx with hx | hx
      · exact hr1 x hx
      · exact hr2 x hx
    · rw [Function.iterate_succ_apply, hout2, hout1, List.append_assoc]
    · rw [Function.iterate_succ_apply]; exact ha2

theorem count_eq_zero_of_all_glyph (P : String) (port : Int) (rest : List String)
    (h : ∀ x ∈ rest, x = "|") : rest.count (portLine P port) = 0 := by
  rw [List.count_eq_zero]
  intro hmem
  exact portLine_ne_glyph P port (h _ hmem)

theorem showPortInfo_flags_kept (t : State) (Q : String) (p : Int) :
    (t.httpPortDisplayed = true → (showPortInfo Q p t).httpPortDisplayed = true) ∧
    (t.socksPortDisplayed = true → (showPortInfo Q p t).socksPortDisplayed = true) := by
  constructor <;> intro h <;> unfold showPortInfo <;>
    (repeat' split) <;> simp_all [State.print] <;> split <;> simp_all

theorem initOutputMode_flags (t : State) (q v : Bool) :
    (initOutputMode q v t).httpPortDisplayed = t.httpPortDisplayed ∧
    (initOutputMode q v t).socksPortDisplayed = t.socksPortDisplayed := by
  cases hi : t.modeInitialized <;> cases q <;> cases v <;>
    simp [initOutputMode, hi, State.print, ModeDefault, ModeVerbose, ModeQuiet]

theorem showActivity_flags (t u : State) (h : showActivity t = some u) :
    u.httpPortDisplayed = t.httpPortDisplayed ∧
    u.socksPortDisplayed = t.socksPortDisplayed := by
  unfold showActivity at h
  split at h
  · split at h
    · exact absurd h (by simp)
    · cases h; simp [State.print]
  · have hu : u = t := by
      (repeat' split at h) <;> cases h <;> rfl
    rw [hu]; exact ⟨rfl, rfl⟩

theorem printedSince_of_append (s t : State) (out : List String)
    (h : t.stdout = s.stdout ++ out) : printedSince s t = out := by
  simp [printedSince, h]

/-- C9: for `P` one of `HTTP`, `SOCKS`, every port and every `N ≥ 1`: in default
mode and with `P` not yet announced, `N` calls of `showPortInfo(P, port)` print
the line `P proxy listening on port <port>` exactly once, the first call
prints it and the later calls do not, and `P` is announced afterwards; in
verbose or quiet mode the `N` calls return the state unchanged, so they print
nothing and leave the announcement flags as they were. No operation of the
coordinator clears an announcement flag that is set. -/
theorem showPortInfo_announces_once (P : String) (port : Int) (s : State) (N : Nat)
    (hP : P = "HTTP" ∨ P = "SOCKS") (hN : 1 ≤ N) :
    portLine "HTTP" port = "HTTP proxy listening on port " ++ toString port ++ "\n" ∧
    portLine "SOCKS" port = "SOCKS proxy listening on port " ++ toString port ++ "\n" ∧
    (s.outputMode = ModeDefault → announced P s = false →
      (printedSince s ((showPortInfo P port)^[N] s)).count (portLine P port) = 1 ∧
      (printedSince s (showPortInfo P port s)).count (portLine P port) = 1 ∧
      (printedSince (showPortInfo P port s) ((showPortInfo P port)^[N] s)).count
        (portLine P port) = 0 ∧
      announced P ((showPortInfo P port)^[N] s) = true) ∧
    (s.outputMode = ModeVerbose ∨ s.outputMode = ModeQuiet →
      (showPortInfo P port)^[N] s = s ∧
      printedSince s ((showPortInfo P port)^[N] s) = []) ∧
    (∀ (t : State) (Q : String) (p : Int) (q v : Bool),
      (t.httpPortDisplayed = true →
        (showPortInfo Q p t).httpPortDisplayed = true ∧
        (initOutputMode q v t).httpPortDisplayed = true ∧
        ∀ u, showActivity t = some u → u.httpPortDisplayed = true) ∧
      (t.socksPortDisplayed = true →
        (showPortInfo Q p t).socksPortDisplayed = true ∧
        (initOutputMode q v t).socksPortDisplayed = true ∧
        ∀ u, showActivity t = some u → u.socksPortDisplayed = true)) := by
  refine ⟨by simp [portLine, httpPortLine], by simp [portLine, socksPortLine], ?_, ?_, ?_⟩
  · intro hm ha
    obtain ⟨n, rfl⟩ : ∃ n, N = n + 1 := ⟨N - 1, by omega⟩
    obtain ⟨r1, hr1, hout1, ha1, hm1⟩ := showPortInfo_first P port s hP hm ha
    obtain ⟨r2, hr2, hout2, ha2⟩ :=
      showPortInfo_later_iterate P port n hP (showPortInfo P port s) hm1 ha1
    rw [Function.iterate_succ_apply]
    have hall : ((showPortInfo P port)^[n] (showPortInfo P port s)).stdout
        = s.stdout ++ (portLine P port :: (r1 ++ r2)) := by
      rw [hout2, hout1]; simp
    have c1 := count_eq_zero_of_all_glyph P port r1 hr1
    have c2 := count_eq_zero_of_all_glyph P port r2 hr2
    refine ⟨?_, ?_, ?_, ha2⟩
    · rw [printedSince_of_append _ _ _ hall]
      simp [List.count_cons, List.count_append, c1, c2]
    · rw [printedSince_of_append _ _ _ hout1]
      simp [List.count_cons, c1]
    · rw [printedSince_of_append _ _ _ hout2]
      exact c2
  · intro h
    have hne : s.outputMode ≠ ModeDefault := by
      rcases h with h | h <;> rw [h] <;> decide
    have hfix : showPortInfo P port s = s := by simp [showPortInfo, hne]
    have hit : (showPortInfo P port)^[N] s = s := Function.iterate_fixed hfix N
    rw [hit]
    exact ⟨rfl, by simp [printedSince]⟩
  · intro t Q p q v
    constructor
    · intro h
      refine ⟨(showPortInfo_flags_kept t Q p).1 h, ?_, ?_⟩
      · rw [(initOutputMode_flags t q v).1]; exact h
      · intro u hu
        rw [(showActivity_flags t u hu).1]; exact h
    · intro h
      refine ⟨(showPortInfo_flags_kept t Q p).2 h, ?_, ?_⟩
      · rw [(initOutputMode_flags t q v).2]; exact h
      · intro u hu
        rw [(showActivity_flags t u hu).2]; exact h

theorem showPortInfo_announces_once_witness :
    (printedSince State.initial ((showPortInfo "HTTP" 8080)^[3] State.initial)).count
      (portLine "HTTP" 8080) = 1 :=
  ((showPortInfo_announces_once "HTTP" 8080 State.initial 3 (Or.inl rfl) (by decide)).2.2.1
    (by decide) (by decide)).1

/-! ## Theorems: CONNECT tunnelling -/

/-- C5: when the dial of the destination fails with error text `e`,
`handleTunneling` makes exactly one call on the response writer,
`http.Error(w, e, 503)`: the only status written is 503, of the 5xx class, it
is the status sent on a writer not written to before, and the message of the
reply is `e`; no status 200 is written, `Hijack` is not called, and no relay is
started. -/
theorem handleTunneling_dial_failure (dial : String → Result Conn) (w : ResponseWriter)
    (host e : String) (h : dial host = Result.error e) :
    callsSince w (handleTunneling dial w host).w = [WriterCall.Error e 503] ∧
    statusesWritten (callsSince w (handleTunneling dial w host).w) = [503] ∧
    (500 ≤ 503 ∧ 503 < 600) ∧
    (w.calls = [] → sentStatus (handleTunneling dial w host).w.calls = some 503) ∧
    200 ∉ statusesWritten (callsSince w (handleTunneling dial w host).w) ∧
    WriterCall.Hijack ∉ callsSince w (handleTunneling dial w host).w ∧
    (handleTunneling dial w host).w.hijacker = w.hijacker ∧
    (handleTunneling dial w host).relays = [] := by
  have hw : (handleTunneling dial w host).w = w.Error e 503 := by
    simp [handleTunneling, h, StatusServiceUnavailable]
  have hc : callsSince w (handleTunneling dial w host).w = [WriterCall.Error e 503] := by
    simp [hw, callsSince, ResponseWriter.Error]
  refine ⟨hc, ?_, by decide, ?_, ?_, ?_, ?_, ?_⟩
  · simp [hc, statusesWritten, WriterCall.status]
  · intro h0
    simp [hw, ResponseWriter.Error, h0, sentStatus, statusesWritten, WriterCall.status]
  · simp [hc, statusesWritten, WriterCall.status]
  · simp [hc]
  · simp [hw, ResponseWriter.Error]
  · simp [handleTunneling, h]

theorem handleTunneling_dial_failure_witness :
    callsSince { hijacker := some (Result.ok 2), calls := [] }
      (handleTunneling (fun _ => Result.error "dial tcp: connection refused")
        { hijacker := some (Result.ok 2), calls := [] } "example.com:443").w
      = [WriterCall.Error "dial tcp: connection refused" 503] :=
  (handleTunneling_dial_failure (fun _ => Result.error "dial tcp: connection refused")
    { hijacker := some (Result.ok 2), calls := [] } "example.com:443"
    "dial tcp: connection refused" rfl).1

/-- C6 (the code at the failing input): the dial succeeds and the response
writer has no hijacker. `handleTunneling` has already written status 200 when
it finds that out, so the calls are `WriteHeader(200)` followed by
`http.Error(w, "Hijacking not supported", 500)`, and the first status written,
the one sent, is 200 and not 500. No relay is started. -/
theorem handleTunneling_no_hijacker_sends_200 :
    (handleTunneling (fun _ => Result.ok 1) { hijacker := none, calls := [] }
      "example.com:443").w.calls
      = [WriterCall.WriteHeader 200, WriterCall.Error "Hijacking not supported" 500] ∧
    sentStatus (handleTunneling (fun _ => Result.ok 1) { hijacker := none, calls := [] }
      "example.com:443").w.calls = some 200 ∧
    sentStatus (handleTunneling (fun _ => Result.ok 1) { hijacker := none, calls := [] }
      "example.com:443").w.calls ≠ some 500 ∧
    (handleTunneling (fun _ => Result.ok 1) { hijacker := none, calls := [] }
      "example.com:443").relays = [] := by
  decide

theorem Op.run_closed_mono (op : Op) (n : Net) (c : Conn) (h : c ∈ n.closed) :
    c ∈ (op.run n).closed := by
  cases op <;> simp [Op.run, h]

theorem relayProgress_mono (o : CopyOutcome) (d s : Conn) (remaining : List Op) (op : Op)
    (n : Net) (h : relayProgress o d s remaining n) :
    relayProgress o d s remaining (op.run n) := by
  rcases h with h | h | ⟨h, hs⟩ | ⟨h, hs, hd⟩
  · exact Or.inl h
  · exact Or.inr (Or.inl h)
  · exact Or.inr (Or.inr (Or.inl ⟨h, Op.run_closed_mono op n s hs⟩))
  · exact Or.inr (Or.inr (Or.inr
      ⟨h, Op.run_closed_mono op n s hs, Op.run_closed_mono op n d hd⟩))

theorem relayProgress_advance (o : CopyOutcome) (d s : Conn) (op : Op) (rest : List Op)
    (n : Net) (h : relayProgress o d s (op :: rest) n) :
    relayProgress o d s rest (op.run n) := by
  rcases h with h | h | ⟨h, hs⟩ | ⟨h, _⟩
  · simp only [transferOps, List.cons.injEq] at h
    obtain ⟨_, rfl⟩ := h
    exact Or.inr (Or.inl rfl)
  · simp only [List.cons.injEq] at h
    obtain ⟨rfl, rfl⟩ := h
    exact Or.inr (Or.inr (Or.inl ⟨rfl, by simp [Op.run]⟩))
  · simp only [List.cons.injEq] at h
    obtain ⟨rfl, rfl⟩ := h
    exact Or.inr (Or.inr (Or.inr ⟨rfl, by simp [Op.run, hs], by simp [Op.run]⟩))
  · exact absurd h (by simp)

theorem Relays.step_progress (o1 o2 : CopyOutcome) (d1 s1 d2 s2 : Conn) (r : Relays)
    (pick : Bool)
    (h1 : relayProgress o1 d1 s1 r.first r.net) (h2 : relayProgress o2 d2 s2 r.second r.net) :
    relayProgress o1 d1 s1 (r.step pick).first (r.step pick).net ∧
    relayProgress o2 d2 s2 (r.step pick).second (r.step pick).net := by
  cases pick
  · cases hsec : r.second with
    | nil => simpa [Relays.step, hsec] using ⟨h1, hsec ▸ h2⟩
    | cons op rest =>
      rw [hsec] at h2
      simpa [Relays.step, hsec] using
        ⟨relayProgress_mono o1 d1 s1 r.first op r.net h1,
          relayProgress_advance o2 d2 s2 op rest r.net h2⟩
  · cases hfst : r.first with
    | nil => simpa [Relays.step, hfst] using ⟨hfst ▸ h1, h2⟩
    | cons op rest =>
      rw [hfst] at h1
      simpa [Relays.step, hfst] using
        ⟨relayProgress_advance o1 d1 s1 op rest r.net h1,
          relayProgress_mono o2 d2 s2 r.second op r.net h2⟩

theorem Relays.run_progress (o1 o2 : CopyOutcome) (d1 s1 d2 s2 : Conn)
    (schedule : List Bool) (r : Relays)
    (h1 : relayProgress o1 d1 s1 r.first r.net) (h2 : relayProgress o2 d2 s2 r.second r.net) :
    relayProgress o1 d1 s1 (r.run schedule).first (r.run schedule).net ∧
    relayProgress o2 d2 s2 (r.run schedule).second (r.run schedule).net := by
  induction schedule generalizing r with
  | nil => exact ⟨h1, h2⟩
  | cons pick rest ih =>
    have hs := Relays.step_progress o1 o2 d1 s1 d2 s2 r pick h1 h2
    simpa [Relays.run] using ih (r.step pick) hs.1 hs.2

theorem relayProgress_returned (o : CopyOutcome) (d s : Conn) (n : Net)
    (h : relayProgress o d s [] n) : s ∈ n.closed ∧ d ∈ n.closed := by
  rcases h with h | h | ⟨h, _⟩ | ⟨_, hs, hd⟩
  · exact absurd h (by simp [transferOps])
  · exact absurd h (by simp)
  · exact absurd h (by simp)
  · exact ⟨hs, hd⟩

/-- C7: however the copy ends (end-of-stream, read error or write error) and
whatever the connections were before, when `transfer` returns its source and
its destination have both been closed, and nothing closed before is open
again. For a tunnel that `handleTunneling` starts (the dial yields `dest`, the
hijack yields `client`), the two relays are `transfer(dest, client)` and
`transfer(client, dest)`: each of them, run to its return, leaves both `client`
and `dest` closed, and under every interleaving of the steps of the two
goroutines, in every state in which one of the two has returned both `client`
and `dest` are closed. -/
theorem transfer_closes_both (dial : String → Result Conn) (w : ResponseWriter)
    (host : String) (dest client : Conn)
    (hd : dial host = Result.ok dest) (hh : w.hijacker = some (Result.ok client)) :
    (∀ (outcome : CopyOutcome) (destination source : Conn) (n : Net),
      source ∈ (transfer outcome destination source n).closed ∧
      destination ∈ (transfer outcome destination source n).closed ∧
      ∀ c ∈ n.closed, c ∈ (transfer outcome destination source n).closed) ∧
    (handleTunneling dial w host).relays = [(dest, client), (client, dest)] ∧
    (∀ relay ∈ (handleTunneling dial w host).relays, ∀ (outcome : CopyOutcome) (n : Net),
      client ∈ (transfer outcome relay.1 relay.2 n).closed ∧
      dest ∈ (transfer outcome relay.1 relay.2 n).closed) ∧
    (∀ (o1 o2 : CopyOutcome) (n : Net) (schedule : List Bool),
      ((startRelays (handleTunneling dial w host).relays o1 o2 n).run schedule).first = [] ∨
      ((startRelays (handleTunneling dial w host).relays o1 o2 n).run schedule).second = [] →
      client ∈ ((startRelays (handleTunneling dial w host).relays o1 o2 n).run
        schedule).net.closed ∧
      dest ∈ ((startRelays (handleTunneling dial w host).relays o1 o2 n).run
        schedule).net.closed) := by
  have hrel : (handleTunneling dial w host).relays = [(dest, client), (client, dest)] := by
    simp [handleTunneling, hd, hh, ResponseWriter.WriteHeader]
  have htr : ∀ (outcome : CopyOutcome) (destination source : Conn) (n : Net),
      source ∈ (transfer outcome destination source n).closed ∧
      destination ∈ (transfer outcome destination source n).closed ∧
      ∀ c ∈ n.closed, c ∈ (transfer outcome destination source n).closed := by
    intro outcome destination source n
    simp [transfer, transferOps, Op.run]
    intro c hc
    exact Or.inr (Or.inr hc)
  refine ⟨htr, hrel, ?_, ?_⟩
  · intro relay hmem outcome n
    rw [hrel] at hmem
    simp only [List.mem_cons, List.mem_singleton, List.not_mem_nil, or_false] at hmem
    rcases hmem with rfl | rfl
    · exact ⟨(htr outcome dest client n).1, (htr outcome dest client n).2.1⟩
    · exact ⟨(htr outcome client dest n).2.1, (htr outcome client dest n).1⟩
  · intro o1 o2 n schedule hret
    rw [hrel] at hret ⊢
    have hp := Relays.run_progress o1 o2 dest client client dest schedule
      (startRelays [(dest, client), (client, dest)] o1 o2 n)
      (Or.inl rfl) (Or.inl rfl)
    rcases hret with h | h
    · have := relayProgress_returned o1 dest client _ (h ▸ hp.1)
      exact ⟨this.1, this.2⟩
    · have := relayProgress_returned o2 client dest _ (h ▸ hp.2)
      exact ⟨this.2, this.1⟩

theorem transfer_closes_both_witness :
    (handleTunneling (fun _ => Result.ok 1) { hijacker := some (Result.ok 2), calls := [] }
      "example.com:443").relays = [(1, 2), (2, 1)] ∧
    (2 ∈ (transfer (CopyOutcome.readError "connection reset by peer") 1 2
      { closed := [], copies := [] }).closed ∧
     1 ∈ (transfer (CopyOutcome.readError "connection reset by peer") 1 2
      { closed := [], copies := [] }).closed) :=
  have h := transfer_closes_both (fun _ => Result.ok 1)
    { hijacker := some (Result.ok 2), calls := [] } "example.com:443" 1 2 rfl rfl
  ⟨h.2.1, (h.1 (CopyOutcome.readError "connection reset by peer") 1 2
    { closed := [], copies := [] }).1,
   (h.1 (CopyOutcome.readError "connection reset by peer") 1 2
    { closed := [], copies := [] }).2.1⟩

/-! ## Theorems: plain request forwarding -/

theorem rewriteRequest_ok (lib : Lib) (r : Request) (t : URL)
    (hparse : lib.reparse r.URL = Result.ok t) :
    rewriteRequest lib r = Result.ok (setForwarding lib r (ensureScheme t)) := by
  simp [rewriteRequest, hparse]

theorem outgoingRequest_ok (lib : Lib) (r : Request) (t : URL)
    (hparse : lib.reparse r.URL = Result.ok t) :
    outgoingRequest lib r
      = Result.ok (Director lib (setForwarding lib r (ensureScheme t))) := by
  simp [outgoingRequest, rewriteRequest, hparse]

theorem ensureScheme_scheme (t : URL) : (ensureScheme t).Scheme = resolvedScheme t := by
  unfold ensureScheme resolvedScheme
  split <;> simp_all

theorem ensureScheme_host (t : URL) : (ensureScheme t).Host = t.Host := by
  unfold ensureScheme
  split <;> rfl

theorem resolvedScheme_ne_empty (t : URL) : resolvedScheme t ≠ "" := by
  unfold resolvedScheme
  split
  · decide
  · assumption

theorem setForwarding_fields (lib : Lib) (r : Request) (u : URL) :
    (setForwarding lib r u).URL = u ∧
    (setForwarding lib r u).Host = u.Host ∧
    (setForwarding lib r u).RemoteAddr = r.RemoteAddr ∧
    (setForwarding lib r u).Method = r.Method ∧
    (setForwarding lib r u).Header (lib.canonicalKey "X-Real-IP") = some [r.RemoteAddr] ∧
    (lib.canonicalKey "X-Forwarded-Proto" ≠ lib.canonicalKey "X-Real-IP" →
      (setForwarding lib r u).Header (lib.canonicalKey "X-Forwarded-Proto")
        = some [u.Scheme]) := by
  refine ⟨rfl, rfl, rfl, rfl, by simp [setForwarding, Header.Set], ?_⟩
  intro h
  simp [setForwarding, Header.Set, h]

theorem Director_scheme_ne_empty (lib : Lib) (req : Request) (h : req.URL.Scheme ≠ "") :
    (Director lib req).URL.Scheme ≠ "" := by
  unfold Director
  split
  · exact h
  · rw [(setForwarding_fields lib req _).1, ensureScheme_scheme]
    exact resolvedScheme_ne_empty _

theorem Director_scheme_kept (lib : Lib) (req : Request) (h : req.URL.Scheme ≠ "")
    (hlaw : ∀ u, lib.reparse req.URL = Result.ok u → u.Scheme = req.URL.Scheme) :
    (Director lib req).URL.Scheme = req.URL.Scheme := by
  unfold Director
  split
  · rfl
  · next u hu =>
    rw [(setForwarding_fields lib req _).1, ensureScheme_scheme]
    have := hlaw u hu
    unfold resolvedScheme
    rw [this]
    simp [h]

theorem Director_fields (lib : Lib) (req : Request)
    (hhost : req.Host = req.URL.Host)
    (hip : req.Header (lib.canonicalKey "X-Real-IP") = some [req.RemoteAddr])
    (hproto : req.Header (lib.canonicalKey "X-Forwarded-Proto") = some [req.URL.Scheme])
    (hkeys : lib.canonicalKey "X-Forwarded-Proto" ≠ lib.canonicalKey "X-Real-IP") :
    (Director lib req).Host = (Director lib req).URL.Host ∧
    (Director lib req).RemoteAddr = req.RemoteAddr ∧
    (Director lib req).Header (lib.canonicalKey "X-Real-IP") = some [req.RemoteAddr] ∧
    (Director lib req).Header (lib.canonicalKey "X-Forwarded-Proto")
      = some [(Director lib req).URL.Scheme] := by
  unfold Director
  split
  · exact ⟨hhost, rfl, hip, hproto⟩
  · next u _ =>
    have hf := setForwarding_fields lib req (ensureScheme u)
    refine ⟨?_, hf.2.2.1, hf.2.2.2.2.1, ?_⟩
    · rw [hf.2.1, hf.1]
    · rw [hf.2.2.2.2.2 hkeys, hf.1]

theorem Header.Get_of_single (lib : Lib) (h : Header) (key value : String)
    (hv : h (lib.canonicalKey key) = some [value]) : Header.Get lib h key = value := by
  simp [Header.Get, hv]

/-- C2: when the URL of a request given to `handleHTTP` parses, to `t`, the
request is rewritten and handed to the `Director`, and the scheme of its URL is
never empty: after the rewrite of `handleHTTP` it is `http` when `t` has no
scheme and the scheme of `t` otherwise; after the `Director` it is again
non-empty, and it is that same scheme whenever the library keeps the scheme of
the rewritten URL on parsing its rendering again. -/
theorem outgoing_scheme_never_empty (lib : Lib) (r : Request) (t : URL)
    (hparse : lib.reparse r.URL = Result.ok t) :
    ∃ r1, rewriteRequest lib r = Result.ok r1 ∧
      outgoingRequest lib r = Result.ok (Director lib r1) ∧
      r1.URL.Scheme ≠ "" ∧
      (t.Scheme = "" → r1.URL.Scheme = "http") ∧
      (t.Scheme ≠ "" → r1.URL.Scheme = t.Scheme) ∧
      (Director lib r1).URL.Scheme ≠ "" ∧
      ((∀ u, lib.reparse r1.URL = Result.ok u → u.Scheme = r1.URL.Scheme) →
        (t.Scheme = "" → (Director lib r1).URL.Scheme = "http") ∧
        (t.Scheme ≠ "" → (Director lib r1).URL.Scheme = t.Scheme)) := by
  have hf := setForwarding_fields lib r (ensureScheme t)
  have hs : (setForwarding lib r (ensureScheme t)).URL.Scheme = resolvedScheme t := by
    rw [hf.1, ensureScheme_scheme]
  have hne : (setForwarding lib r (ensureScheme t)).URL.Scheme ≠ "" := by
    rw [hs]; exact resolvedScheme_ne_empty t
  have h1 : t.Scheme = "" → resolvedScheme t = "http" := by
    intro h; simp [resolvedScheme, h]
  have h2 : t.Scheme ≠ "" → resolvedScheme t = t.Scheme := by
    intro h; simp [resolvedScheme, h]
  refine ⟨setForwarding lib r (ensureScheme t), rewriteRequest_ok lib r t hparse,
    outgoingRequest_ok lib r t hparse, hne, ?_, ?_,
    Director_scheme_ne_empty lib _ hne, ?_⟩
  · intro h; rw [hs]; exact h1 h
  · intro h; rw [hs]; exact h2 h
  · intro hlaw
    have hk := Director_scheme_kept lib _ hne hlaw
    constructor
    · intro h; rw [hk, hs]; exact h1 h
    · intro h; rw [hk, hs]; exact h2 h

theorem outgoing_scheme_never_empty_witness :
    ∃ r1, rewriteRequest sampleLib originFormRequest = Result.ok r1 ∧
      r1.URL.Scheme = "http" ∧ (Director sampleLib r1).URL.Scheme = "http" := by
  obtain ⟨r1, hr, _, _, h0, _, _, hd⟩ :=
    outgoing_scheme_never_empty sampleLib originFormRequest originFormRequest.URL rfl
  refine ⟨r1, hr, h0 rfl, (hd ?_).1 rfl⟩
  intro u hu
  have : r1.URL = u := by simpa [sampleLib] using hu
  rw [this]

/-- The forwarding headers and the `Host` after the rewrite of `handleHTTP`
and after the `Director`, before `ServeHTTP` processes the headers further. -/
theorem director_proto_realip_host (lib : Lib) (r : Request) (t : URL)
    (hparse : lib.reparse r.URL = Result.ok t)
    (hkeys : lib.canonicalKey "X-Forwarded-Proto" ≠ lib.canonicalKey "X-Real-IP") :
    ∃ r1, rewriteRequest lib r = Result.ok r1 ∧
      outgoingRequest lib r = Result.ok (Director lib r1) ∧
      r1.URL = ensureScheme t ∧
      r1.Header (lib.canonicalKey "X-Forwarded-Proto") = some [resolvedScheme t] ∧
      Header.Get lib r1.Header "X-Forwarded-Proto" = resolvedScheme t ∧
      r1.Header (lib.canonicalKey "X-Real-IP") = some [r.RemoteAddr] ∧
      Header.Get lib r1.Header "X-Real-IP" = r.RemoteAddr ∧
      r1.Host = t.Host ∧ r1.Host = r1.URL.Host ∧
      (Director lib r1).Header (lib.canonicalKey "X-Forwarded-Proto")
        = some [(Director lib r1).URL.Scheme] ∧
      Header.Get lib (Director lib r1).Header "X-Forwarded-Proto"
        = (Director lib r1).URL.Scheme ∧
      (Director lib r1).Header (lib.canonicalKey "X-Real-IP") = some [r.RemoteAddr] ∧
      Header.Get lib (Director lib r1).Header "X-Real-IP" = r.RemoteAddr ∧
      (Director lib r1).Host = (Director lib r1).URL.Host ∧
      ((∀ u, lib.reparse r1.URL = Result.ok u → u.Scheme = r1.URL.Scheme) →
        (Director lib r1).URL.Scheme = resolvedScheme t ∧
        Header.Get lib (Director lib r1).Header "X-Forwarded-Proto" = resolvedScheme t) := by
  have hf := setForwarding_fields lib r (ensureScheme t)
  have hs : (setForwarding lib r (ensureScheme t)).URL.Scheme = resolvedScheme t := by
    rw [hf.1, ensureScheme_scheme]
  have hne : (setForwarding lib r (ensureScheme t)).URL.Scheme ≠ "" := by
    rw [hs]; exact resolvedScheme_ne_empty t
  have hproto : (setForwarding lib r (ensureScheme t)).Header
      (lib.canonicalKey "X-Forwarded-Proto") = some [resolvedScheme t] := by
    rw [hf.2.2.2.2.2 hkeys, ensureScheme_scheme]
  have hhost : (setForwarding lib r (ensureScheme t)).Host
      = (setForwarding lib r (ensureScheme t)).URL.Host := by
    rw [hf.2.1, hf.1]
  have hd := Director_fields lib (setForwarding lib r (ensureScheme t)) hhost
    (by rw [hf.2.2.2.2.1, hf.2.2.1]) (by rw [hproto, hs]) hkeys
  rw [hf.2.2.1] at hd
  refine ⟨setForwarding lib r (ensureScheme t), rewriteRequest_ok lib r t hparse,
    outgoingRequest_ok lib r t hparse, hf.1, hproto,
    Header.Get_of_single lib _ _ _ hproto, hf.2.2.2.2.1,
    Header.Get_of_single lib _ _ _ hf.2.2.2.2.1, ?_, hhost, hd.2.2.2,
    Header.Get_of_single lib _ _ _ hd.2.2.2, hd.2.2.1,
    Header.Get_of_single lib _ _ _ hd.2.2.1, hd.1, ?_⟩
  · rw [hf.2.1, ensureScheme_host]
  · intro hlaw
    have hk := Director_scheme_kept lib _ hne hlaw
    refine ⟨by rw [hk, hs], ?_⟩
    rw [Header.Get_of_single lib _ _ _ hd.2.2.2, hk, hs]

/-- C4: whatever headers an upstream response carries, when the canonical
forms of the three CORS keys differ from one another the response modifier
returns no error and leaves `Access-Control-Allow-Origin` with the single value
`*`, `Access-Control-Allow-Methods` with the single value
`GET, POST, PUT, DELETE, OPTIONS` and `Access-Control-Allow-Headers` with the
single value `*`; every other key of the header map, the status code and the
body are as they were. -/
theorem ModifyResponse_sets_cors (lib : Lib) (resp : Response)
    (hom : lib.canonicalKey "Access-Control-Allow-Origin"
      ≠ lib.canonicalKey "Access-Control-Allow-Methods")
    (hoh : lib.canonicalKey "Access-Control-Allow-Origin"
      ≠ lib.canonicalKey "Access-Control-Allow-Headers")
    (hmh : lib.canonicalKey "Access-Control-Allow-Methods"
      ≠ lib.canonicalKey "Access-Control-Allow-Headers") :
    (ModifyResponse lib resp).2 = none ∧
    (ModifyResponse lib resp).1.Header (lib.canonicalKey "Access-Control-Allow-Origin")
      = some ["*"] ∧
    (ModifyResponse lib resp).1.Header (lib.canonicalKey "Access-Control-Allow-Methods")
      = some ["GET, POST, PUT, DELETE, OPTIONS"] ∧
    (ModifyResponse lib resp).1.Header (lib.canonicalKey "Access-Control-Allow-Headers")
      = some ["*"] ∧
    Header.Get lib (ModifyResponse lib resp).1.Header "Access-Control-Allow-Origin" = "*" ∧
    Header.Get lib (ModifyResponse lib resp).1.Header "Access-Control-Allow-Methods"
      = "GET, POST, PUT, DELETE, OPTIONS" ∧
    Header.Get lib (ModifyResponse lib resp).1.Header "Access-Control-Allow-Headers" = "*" ∧
    (∀ k, k ≠ lib.canonicalKey "Access-Control-Allow-Origin" →
      k ≠ lib.canonicalKey "Access-Control-Allow-Methods" →
      k ≠ lib.canonicalKey "Access-Control-Allow-Headers" →
      (ModifyResponse lib resp).1.Header k = resp.Header k) ∧
    (ModifyResponse lib resp).1.StatusCode = resp.StatusCode ∧
    (ModifyResponse lib resp).1.Body = resp.Body := by
  have ho : (ModifyResponse lib resp).1.Header
      (lib.canonicalKey "Access-Control-Allow-Origin") = some ["*"] := by
    simp [ModifyResponse, Header.Set, hom, hoh]
  have hm : (ModifyResponse lib resp).1.Header
      (lib.canonicalKey "Access-Control-Allow-Methods")
      = some ["GET, POST, PUT, DELETE, OPTIONS"] := by
    simp [ModifyResponse, Header.Set, hmh]
  have hh : (ModifyResponse lib resp).1.Header
      (lib.canonicalKey "Access-Control-Allow-Headers") = some ["*"] := by
    simp [ModifyResponse, Header.Set]
  refine ⟨rfl, ho, hm, hh, Header.Get_of_single lib _ _ _ ho,
    Header.Get_of_single lib _ _ _ hm, Header.Get_of_single lib _ _ _ hh, ?_, rfl, rfl⟩
  intro k h1 h2 h3
  simp [ModifyResponse, Header.Set, h1, h2, h3]

theorem ModifyResponse_sets_cors_witness :
    upstreamResponse.Header "Access-Control-Allow-Origin"
      = some ["https://a.example", "https://b.example"] ∧
    (ModifyResponse sampleLib upstreamResponse).1.Header "Access-Control-Allow-Origin"
      = some ["*"] ∧
    (ModifyResponse sampleLib upstreamResponse).1.Header "Content-Type"
      = some ["text/plain"] :=
  have h := ModifyResponse_sets_cors sampleLib upstreamResponse
    (by decide) (by decide) (by decide)
  ⟨by decide, h.2.1,
    (h.2.2.2.2.2.2.2.1 "Content-Type" (by decide) (by decide) (by decide)).trans (by decide)⟩

/-- C1 (the code at the failing input): the request `GET /path` with
`Host: a.com`. The rewrite of `handleHTTP` sets `X-Forwarded-Host` to `a.com`,
the original `Host`, and then overwrites the request's `Host` with the host of
the target URL, which is empty; the `Director` sets `X-Forwarded-Host` again,
from that overwritten `Host`, so the request that leaves the proxy carries an
empty `X-Forwarded-Host`, not `a.com`. -/
theorem outgoing_forwarded_host_overwritten :
    originFormRequest.Host = "a.com" ∧
    ∃ r1, rewriteRequest sampleLib originFormRequest = Result.ok r1 ∧
      outgoingRequest sampleLib originFormRequest = Result.ok (Director sampleLib r1) ∧
      Header.Get sampleLib r1.Header "X-Forwarded-Host" = "a.com" ∧
      r1.Host = "" ∧
      (Director sampleLib r1).Header "X-Forwarded-Host" = some [""] ∧
      Header.Get sampleLib (Director sampleLib r1).Header "X-Forwarded-Host" = "" ∧
      Header.Get sampleLib (Director sampleLib r1).Header "X-Forwarded-Host"
        ≠ originFormRequest.Host :=
  ⟨rfl, _, rfl, rfl, by decide, by decide, by decide, by decide, by decide⟩

theorem foldl_Del_none (lib : Lib) (keys : List String) (h : Header) (k : String)
    (hk : h k = none) :
    (keys.foldl (fun acc f => Header.Del lib acc f) h) k = none := by
  induction keys generalizing h with
  | nil => exact hk
  | cons f rest ih =>
    apply ih
    simp [Header.Del, hk]

theorem foldl_Del_of_named (lib : Lib) (keys : List String) (h : Header) (k : String)
    (hn : keys.any (fun f => decide (lib.canonicalKey f = k)) = true) :
    (keys.foldl (fun acc f => Header.Del lib acc f) h) k = none := by
  induction keys generalizing h with
  | nil => simp at hn
  | cons f rest ih =>
    simp only [List.any_cons, Bool.or_eq_true, decide_eq_true_eq] at hn
    rcases hn with hf | hrest
    · exact foldl_Del_none lib rest _ k (by simp [Header.Del, hf])
    · exact ih _ hrest

theorem foldl_Del_of_not_named (lib : Lib) (keys : List String) (h : Header) (k : String)
    (hn : ∀ f ∈ keys, lib.canonicalKey f ≠ k) :
    (keys.foldl (fun acc f => Header.Del lib acc f) h) k = h k := by
  induction keys generalizing h with
  | nil => rfl
  | cons f rest ih =>
    have hf : k ≠ lib.canonicalKey f := fun e => hn f (by simp) e.symm
    rw [List.foldl_cons, ih _ (fun g hg => hn g (List.mem_cons_of_mem _ hg))]
    simp [Header.Del, hf]

theorem foldl_own_other (lib : Lib) (own : OwnHeader) (req outreq : Request)
    (keys : List String) (h : Header) (k : String)
    (hk : ∀ key ∈ keys, lib.canonicalKey key ≠ k) :
    (keys.foldl
      (fun acc key =>
        match own key req outreq with
        | some value => Header.Set lib acc key value
        | none => acc) h) k = h k := by
  induction keys generalizing h with
  | nil => rfl
  | cons f rest ih =>
    have hf : k ≠ lib.canonicalKey f := fun e => hk f (by simp) e.symm
    rw [List.foldl_cons, ih _ (fun g hg => hk g (List.mem_cons_of_mem _ hg))]
    cases own f req outreq <;> simp [Header.Set, hf]

theorem serveRequest_header (lib : Lib) (own : OwnHeader) (req : Request) (key : String)
    (hlib : ∀ f ∈ hopHeaders ++ proxyOwnKeys, lib.canonicalKey f ≠ lib.canonicalKey key) :
    (namedInConnection lib (Director lib req).Header key = false →
      (serveRequest lib own req).Header (lib.canonicalKey key)
        = (Director lib req).Header (lib.canonicalKey key)) ∧
    (namedInConnection lib (Director lib req).Header key = true →
      (serveRequest lib own req).Header (lib.canonicalKey key) = none) := by
  have hhop : ∀ f ∈ hopHeaders, lib.canonicalKey f ≠ lib.canonicalKey key :=
    fun f hf => hlib f (List.mem_append_left _ hf)
  have hown : ∀ f ∈ proxyOwnKeys, lib.canonicalKey f ≠ lib.canonicalKey key :=
    fun f hf => hlib f (List.mem_append_right _ hf)
  have hsent : (serveRequest lib own req).Header (lib.canonicalKey key)
      = removeHopByHopHeaders lib (Director lib req).Header (lib.canonicalKey key) := by
    simp only [serveRequest, setOwnHeaders]
    exact foldl_own_other lib own req _ proxyOwnKeys _ _ hown
  rw [hsent]
  simp only [removeHopByHopHeaders]
  rw [foldl_Del_of_not_named lib hopHeaders _ _ hhop]
  constructor
  · intro hn
    apply foldl_Del_of_not_named
    intro f hf e
    have : namedInConnection lib (Director lib req).Header key = true := by
      simp only [namedInConnection, List.any_eq_true, decide_eq_true_eq]
      exact ⟨f, hf, e⟩
    rw [hn] at this
    exact absurd this (by decide)
  · intro hn
    exact foldl_Del_of_named lib _ _ _ hn

theorem setForwarding_other (lib : Lib) (r : Request) (u : URL) (k : String)
    (hk : ∀ key ∈ ["X-Forwarded-Host", "X-Forwarded-Proto", "X-Real-IP"],
      lib.canonicalKey key ≠ k) :
    (setForwarding lib r u).Header k = r.Header k := by
  have h1 : k ≠ lib.canonicalKey "X-Forwarded-Host" := fun e => hk _ (by simp) e.symm
  have h2 : k ≠ lib.canonicalKey "X-Forwarded-Proto" := fun e => hk _ (by simp) e.symm
  have h3 : k ≠ lib.canonicalKey "X-Real-IP" := fun e => hk _ (by simp) e.symm
  simp [setForwarding, Header.Set, h1, h2, h3]

theorem Director_other (lib : Lib) (req : Request) (k : String)
    (hk : ∀ key ∈ ["X-Forwarded-Host", "X-Forwarded-Proto", "X-Real-IP"],
      lib.canonicalKey key ≠ k) :
    (Director lib req).Header k = req.Header k := by
  unfold Director
  split
  · rfl
  · exact setForwarding_other lib req _ k hk

theorem serveRequest_url_host (lib : Lib) (own : OwnHeader) (req : Request) :
    (serveRequest lib own req).URL = (Director lib req).URL ∧
    (serveRequest lib own req).Host = (Director lib req).Host ∧
    (serveRequest lib own req).RemoteAddr = (Director lib req).RemoteAddr :=
  ⟨rfl, rfl, rfl⟩

/-- C3 (counterexample): the request `GET http://b.com/x` from `10.0.0.1:5000`
with `Connection: X-Real-IP, X-Forwarded-Proto`. The rewrite of `handleHTTP` and
the `Director` set both headers, but the reverse proxy removes the headers
named in `Connection` after the `Director` has returned, so the request that is
sent carries neither `X-Real-IP` nor `X-Forwarded-Proto`. -/
theorem sent_proto_realip_removed :
    ∃ r1, rewriteRequest sampleLib connectionNamingRequest = Result.ok r1 ∧
      sentRequest sampleLib sampleOwn connectionNamingRequest
        = Result.ok (serveRequest sampleLib sampleOwn r1) ∧
      (Director sampleLib r1).Header "X-Real-Ip" = some ["10.0.0.1:5000"] ∧
      (Director sampleLib r1).Header "X-Forwarded-Proto" = some ["http"] ∧
      (serveRequest sampleLib sampleOwn r1).Header "X-Real-Ip" = none ∧
      (serveRequest sampleLib sampleOwn r1).Header "X-Forwarded-Proto" = none ∧
      Header.Get sampleLib (serveRequest sampleLib sampleOwn r1).Header "X-Real-IP"
        ≠ connectionNamingRequest.RemoteAddr ∧
      Header.Get sampleLib (serveRequest sampleLib sampleOwn r1).Header "X-Forwarded-Proto"
        ≠ "http" :=
  ⟨_, rfl, rfl, by decide, by decide, by decide, by decide, by decide, by decide⟩

/-- C3 (amended): when the URL of a request given to `handleHTTP` parses, to
`t`, and the canonical forms of the header keys involved differ as they do in
Go, then after the rewrite of `handleHTTP` and again after the `Director` the
request carries, as the single value of the key and so in place of whatever the
client sent, `X-Forwarded-Proto` equal to the scheme of its URL and `X-Real-IP`
equal to the remote address of the client, and its `Host` is the host of its
URL, the resolved target. The request the reverse proxy then sends has that
same URL and `Host`; it carries each of the two headers, with that value, when
the `Connection` header of the request does not name it, and does not carry it
at all when the `Connection` header names it. After the rewrite the URL is `t`
with the scheme `http` filled in when `t` has none; afterwards its scheme is
still that resolved scheme whenever the library keeps the scheme of the
rewritten URL on parsing its rendering again. -/
theorem sent_proto_realip_host (lib : Lib) (own : OwnHeader) (r : Request) (t : URL)
    (hparse : lib.reparse r.URL = Result.ok t)
    (hkeys : lib.canonicalKey "X-Forwarded-Proto" ≠ lib.canonicalKey "X-Real-IP")
    (hlib : ∀ key ∈ hopHeaders ++ proxyOwnKeys,
      lib.canonicalKey key ≠ lib.canonicalKey "X-Forwarded-Proto" ∧
      lib.canonicalKey key ≠ lib.canonicalKey "X-Real-IP")
    (hconn : ∀ key ∈ ["X-Forwarded-Host", "X-Forwarded-Proto", "X-Real-IP"],
      lib.canonicalKey key ≠ "Connection") :
    ∃ r1, rewriteRequest lib r = Result.ok r1 ∧
      outgoingRequest lib r = Result.ok (Director lib r1) ∧
      sentRequest lib own r = Result.ok (serveRequest lib own r1) ∧
      r1.URL = ensureScheme t ∧
      r1.Header (lib.canonicalKey "X-Forwarded-Proto") = some [resolvedScheme t] ∧
      Header.Get lib r1.Header "X-Forwarded-Proto" = resolvedScheme t ∧
      r1.Header (lib.canonicalKey "X-Real-IP") = some [r.RemoteAddr] ∧
      Header.Get lib r1.Header "X-Real-IP" = r.RemoteAddr ∧
      r1.Host = t.Host ∧ r1.Host = r1.URL.Host ∧
      (Director lib r1).Header (lib.canonicalKey "X-Forwarded-Proto")
        = some [(Director lib r1).URL.Scheme] ∧
      Header.Get lib (Director lib r1).Header "X-Forwarded-Proto"
        = (Director lib r1).URL.Scheme ∧
      (Director lib r1).Header (lib.canonicalKey "X-Real-IP") = some [r.RemoteAddr] ∧
      Header.Get lib (Director lib r1).Header "X-Real-IP" = r.RemoteAddr ∧
      (Director lib r1).Host = (Director lib r1).URL.Host ∧
      (serveRequest lib own r1).URL = (Director lib r1).URL ∧
      (serveRequest lib own r1).Host = (serveRequest lib own r1).URL.Host ∧
      (namedInConnection lib r.Header "X-Forwarded-Proto" = false →
        (serveRequest lib own r1).Header (lib.canonicalKey "X-Forwarded-Proto")
          = some [(serveRequest lib own r1).URL.Scheme] ∧
        Header.Get lib (serveRequest lib own r1).Header "X-Forwarded-Proto"
          = (serveRequest lib own r1).URL.Scheme) ∧
      (namedInConnection lib r.Header "X-Real-IP" = false →
        (serveRequest lib own r1).Header (lib.canonicalKey "X-Real-IP")
          = some [r.RemoteAddr] ∧
        Header.Get lib (serveRequest lib own r1).Header "X-Real-IP" = r.RemoteAddr) ∧
      (namedInConnection lib r.Header "X-Forwarded-Proto" = true →
        (serveRequest lib own r1).Header (lib.canonicalKey "X-Forwarded-Proto") = none) ∧
      (namedInConnection lib r.Header "X-Real-IP" = true →
        (serveRequest lib own r1).Header (lib.canonicalKey "X-Real-IP") = none) ∧
      ((∀ u, lib.reparse r1.URL = Result.ok u → u.Scheme = r1.URL.Scheme) →
        (serveRequest lib own r1).URL.Scheme = resolvedScheme t) := by
  obtain ⟨r1, hr, hout, hurl, h1p, h1pg, h1i, h1ig, h1h, h1hu, h2p, h2pg, h2i, h2ig, h2h,
    hlaw⟩ := director_proto_realip_host lib r t hparse hkeys
  have hr1 : r1 = setForwarding lib r (ensureScheme t) := by
    rw [rewriteRequest_ok lib r t hparse] at hr
    exact (Result.ok.inj hr).symm
  have hc : (Director lib r1).Header "Connection" = r.Header "Connection" := by
    rw [Director_other lib r1 "Connection" hconn, hr1]
    exact setForwarding_other lib r _ "Connection" hconn
  have hnamed : ∀ key, namedInConnection lib (Director lib r1).Header key
      = namedInConnection lib r.Header key := by
    intro key
    simp only [namedInConnection, hc]
  have hP := serveRequest_header lib own r1 "X-Forwarded-Proto" (fun f hf => (hlib f hf).1)
  have hI := serveRequest_header lib own r1 "X-Real-IP" (fun f hf => (hlib f hf).2)
  rw [hnamed] at hP hI
  have hsent : sentRequest lib own r = Result.ok (serveRequest lib own r1) := by
    simp [sentRequest, hr]
  refine ⟨r1, hr, hout, hsent, hurl, h1p, h1pg, h1i, h1ig, h1h, h1hu, h2p, h2pg, h2i, h2ig,
    h2h, rfl, h2h, ?_, ?_, hP.2, hI.2, fun hl => (hlaw hl).1⟩
  · intro hn
    have hv : (serveRequest lib own r1).Header (lib.canonicalKey "X-Forwarded-Proto")
        = some [(serveRequest lib own r1).URL.Scheme] := by
      rw [hP.1 hn, h2p]; rfl
    exact ⟨hv, Header.Get_of_single lib _ _ _ hv⟩
  · intro hn
    have hv : (serveRequest lib own r1).Header (lib.canonicalKey "X-Real-IP")
        = some [r.RemoteAddr] := by
      rw [hI.1 hn, h2i]
    exact ⟨hv, Header.Get_of_single lib _ _ _ hv⟩

theorem sent_proto_realip_host_witness :
    forgedHeadersRequest.Header "X-Real-Ip" = some ["6.6.6.6"] ∧
    forgedHeadersRequest.Header "X-Forwarded-Proto" = some ["https", "ftp"] ∧
    ∃ r1, sentRequest sampleLib sampleOwn forgedHeadersRequest
        = Result.ok (serveRequest sampleLib sampleOwn r1) ∧
      (serveRequest sampleLib sampleOwn r1).Header "X-Real-Ip" = some ["10.0.0.1:5000"] ∧
      (serveRequest sampleLib sampleOwn r1).Header "X-Forwarded-Proto" = some ["http"] ∧
      (serveRequest sampleLib sampleOwn r1).Host = "b.com" := by
  obtain ⟨r1, hr, _, hsent, _, _, _, _, _, hhost, _, _, _, _, _, _, hurl, hh, hp, hi, _, _,
    hlaw⟩ :=
    sent_proto_realip_host sampleLib sampleOwn forgedHeadersRequest forgedHeadersRequest.URL
      rfl (by decide) (by decide) (by decide)
  have hscheme := hlaw (fun u hu => by
    have : r1.URL = u := by simpa [sampleLib] using hu
    rw [this])
  have hr1 : r1 = setForwarding sampleLib forgedHeadersRequest
      (ensureScheme forgedHeadersRequest.URL) := by
    rw [rewriteRequest_ok sampleLib forgedHeadersRequest forgedHeadersRequest.URL rfl] at hr
    exact (Result.ok.inj hr).symm
  refine ⟨by decide, by decide, r1, hsent, (hi (by decide)).1, ?_, ?_⟩
  · have := (hp (by decide)).1
    rw [hscheme] at this
    exact this
  · subst hr1
    decide

end Proxbox
